/-
Verification of the odds-maximizer market-making bot.

The development shallowly embeds the arithmetic and state-transition core of
the bot (odds/stake conversions, the in-memory order-book mirror with its
derived metrics, and the position manager's event handlers) as executable
Lean definitions, translated directly from the JavaScript sources:

* `src/utils/oddsUtils.js`   — ladder checks and rounding
* `src/utils/orderUtils.js`  — stake conversions, taker-space formula
* `src/core/marketMonitor.js`— order-book mirror, metrics, websocket updates
* `src/core/positionManager.js` — position state machine and event handlers
* `src/config/constants.js`  — numeric constants

JavaScript `number` odds/stakes are modelled as exact rationals (ℚ) and
`BigInt` wire amounts as integers (ℤ).  Definitions named after a source
function follow that function; definitions whose name ends in `Spec` are
modelled from the specification's words, for comparison.
-/
import Mathlib

namespace OddsBot

/-! ## Constants (src/config/constants.js) -/

/-- Constant `TOKENS.USDC.DECIMALS`. -/
def USDC_DECIMALS : ℕ := 6

/-- Constant `ODDS.LADDER_STEP_SIZE` (0.25%, in units of `10^16` wire odds). -/
def LADDER_STEP_SIZE : ℤ := 25

/-- Constant `ODDS.STEP_SIZE_DIVISOR`. -/
def STEP_SIZE_DIVISOR : ℤ := 10 ^ 16

/-- Constant `FILL_COMPLETION_THRESHOLD` — "The amount necessary to consider a
position fully filled (99.5%)". -/
def FILL_COMPLETION_THRESHOLD : ℚ := 995 / 1000

/-- Constant `MIN_ORDER_UPDATE_INTERVAL` (positionManager.js, milliseconds). -/
def MIN_ORDER_UPDATE_INTERVAL : ℤ := 2500

/-! ## Stake and odds conversions (orderUtils.js / oddsUtils.js) -/

/-- Function `toNominalAmount`: wire USDC amount (6 decimals) to nominal units. -/
def toNominalAmount (ethereumAmount : ℤ) : ℚ :=
  (ethereumAmount : ℚ) / 10 ^ USDC_DECIMALS

/-- Function `toImpliedOdds`: wire odds (20 decimals) to implied probability. -/
def toImpliedOdds (percentageOdds : ℤ) : ℚ :=
  (percentageOdds : ℚ) / 10 ^ 20

/-- Function `calculateTakerImpliedOdds`: taker implied odds of a maker order. -/
def calculateTakerImpliedOdds (percentageOdds : ℤ) : ℚ :=
  1 - toImpliedOdds percentageOdds

/-- Model of `ethers.parseUnits(x.toString(), 20)`: exact when `x·10^20` is an
integer, otherwise the call throws (modelled as `none`). -/
def impliedToApiOdds (impliedOdds : ℚ) : Option ℤ :=
  if (impliedOdds * 10 ^ 20).den = 1 then some (impliedOdds * 10 ^ 20).num else none

/-- Function `checkOddsLadderValid` (oddsUtils.js): wire odds lie on the ladder iff
divisible by `STEP_SIZE_DIVISOR * LADDER_STEP_SIZE`; a conversion error is
caught and reported as `false`. -/
def checkOddsLadderValid (odds : Option ℤ) : Bool :=
  match odds with
  | some oddsBI => oddsBI % (STEP_SIZE_DIVISOR * LADDER_STEP_SIZE) == 0
  | none => false

/-- Function `roundToNearestStep` (oddsUtils.js): implied odds → percentage,
`Math.round(percentage / 0.25) * 0.25`, back to implied.  JavaScript's
`Math.round` is `⌊x + 1/2⌋`, exactly Mathlib's `round` on ℚ. -/
def roundToNearestStep (impliedOdds : ℚ) : ℚ :=
  let percentage := impliedOdds * 100
  let roundedPercentage := (round (percentage / (1 / 4)) : ℚ) * (1 / 4)
  roundedPercentage / 100

/-- Function `calculateRemainingTakerSpace` (orderUtils.js): guarded integer
formula for the taker capacity of a partially filled maker order. -/
def calculateRemainingTakerSpace (totalBetSize fillAmount percentageOdds : ℤ) : ℚ :=
  if totalBetSize - fillAmount ≤ 0 then 0
  else if percentageOdds ≤ 0 then 0
  else
    toNominalAmount
      ((totalBetSize - fillAmount) * 10 ^ 20 / percentageOdds - (totalBetSize - fillAmount))

/-! ## Order-book mirror (marketMonitor.js) -/

/-- A raw maker order as returned by the REST snapshot
(`fetchOrders`). -/
structure RawOrder where
  orderHash : String
  maker : String
  totalBetSize : ℤ
  fillAmount : ℤ
  percentageOdds : ℤ
  isMakerBettingOutcomeOne : Bool
  deriving DecidableEq, Repr

/-- A processed order as stored in the in-memory orderbook
(`processOrders`). -/
structure ProcessedOrder where
  orderHash : String
  maker : String
  totalBetSize : ℤ
  fillAmount : ℤ
  percentageOdds : ℤ
  impliedOdds : ℚ
  takerImpliedOdds : ℚ
  nominalBetSize : ℚ
  nominalFillAmount : ℚ
  remainingSize : ℚ
  isMakerBettingOutcomeOne : Bool
  outcome : ℕ
  deriving DecidableEq, Repr

/-- The body of the `.map` in `processOrders`: normalize one raw order. -/
def mkProcessedOrder (order : RawOrder) : ProcessedOrder :=
  { orderHash := order.orderHash
    maker := order.maker
    totalBetSize := order.totalBetSize
    fillAmount := order.fillAmount
    percentageOdds := order.percentageOdds
    impliedOdds := toImpliedOdds order.percentageOdds
    takerImpliedOdds := calculateTakerImpliedOdds order.percentageOdds
    nominalBetSize := toNominalAmount order.totalBetSize
    nominalFillAmount := toNominalAmount order.fillAmount
    remainingSize := toNominalAmount (order.totalBetSize - order.fillAmount)
    isMakerBettingOutcomeOne := order.isMakerBettingOutcomeOne
    outcome := if order.isMakerBettingOutcomeOne then 1 else 2 }

/-- Function `processOrders` (marketMonitor.js): drop orders from our own maker
address (`selfMaker` models `ADDRESSES.MAKER`), then normalize. -/
def processOrders (selfMaker : String) (orders : List RawOrder) : List ProcessedOrder :=
  (orders.filter (fun order => order.maker ≠ selfMaker)).map mkProcessedOrder

/-- The per-market orderbook held in the `orderbooks` map: one bucket per
outcome the maker is betting on. -/
structure Orderbook where
  orders1 : List ProcessedOrder
  orders2 : List ProcessedOrder
  deriving DecidableEq, Repr

/-- Function `groupOrdersByOutcome` (orderFetcher.js) followed by per-outcome
`processOrders`, as done in `initializeOrderbook` and
`updateOrderbookFromSnapshot`. -/
def orderbookFromSnapshot (selfMaker : String) (orders : List RawOrder) : Orderbook :=
  { orders1 := processOrders selfMaker (orders.filter (·.isMakerBettingOutcomeOne))
    orders2 := processOrders selfMaker (orders.filter (!·.isMakerBettingOutcomeOne)) }

/-- The derived metrics of `calculateOrderbookMetrics`. -/
structure Metrics where
  bestTakerOdds1 : Option ℚ
  bestTakerOdds2 : Option ℚ
  liquidity1 : ℚ
  liquidity2 : ℚ
  vig : Option ℚ
  deriving DecidableEq, Repr

/-- Eligibility filter of `calculateOrderbookMetrics`: the order bets the
outcome opposite to `outcome` and its remaining size meets
`minBetSizeOdds`. -/
def eligibleForOutcome (minBetSizeOdds : ℚ) (outcome : ℕ) (order : ProcessedOrder) : Bool :=
  (if outcome = 1 then !order.isMakerBettingOutcomeOne else order.isMakerBettingOutcomeOne)
    && decide (minBetSizeOdds ≤ order.remainingSize)

/-- Best taker odds for one outcome in `calculateOrderbookMetrics`: the
eligible orders are sorted by descending maker implied odds and the head is
taken, i.e. the maximum maker implied odds; `null` when none is
eligible. -/
def bestTakerOddsFor (orderbook : Orderbook) (minBetSizeOdds : ℚ) (outcome : ℕ) : Option ℚ :=
  let eligibleOrders :=
    (orderbook.orders1 ++ orderbook.orders2).filter (eligibleForOutcome minBetSizeOdds outcome)
  match (eligibleOrders.map (·.impliedOdds)).max? with
  | some bestMakerImpliedOdds => some (1 - bestMakerImpliedOdds)
  | none => none

/-- Liquidity for one outcome in `calculateOrderbookMetrics`: the sum of
`remainingSize` over the bucket of that same outcome. -/
def liquidityFor (orders : List ProcessedOrder) : ℚ :=
  orders.foldl (fun sum order => sum + order.remainingSize) 0

/-- Function `calculateOrderbookMetrics` (marketMonitor.js).  Only the position's
`minBetSizeOdds` is read; `minBetSizeVig` is destructured but unused. -/
def calculateOrderbookMetrics (orderbook : Orderbook) (minBetSizeOdds : ℚ) : Metrics :=
  let best1 := bestTakerOddsFor orderbook minBetSizeOdds 1
  let best2 := bestTakerOddsFor orderbook minBetSizeOdds 2
  { bestTakerOdds1 := best1
    bestTakerOdds2 := best2
    liquidity1 := liquidityFor orderbook.orders1
    liquidity2 := liquidityFor orderbook.orders2
    vig :=
      match best1, best2 with
      | some b1, some b2 => some ((b1 + b2 - 1) * 100)
      | _, _ => none }

/-! ## Position manager (positionManager.js)

The event handlers are `async` functions mutating a position record and
calling the order gateway; they are embedded as pure state transitions
`Position → Position × List Action`, where the `Action` trace records the
externally visible gateway calls and the `Env` supplies the outcomes of
those calls (cancel result, post result). -/

/-- Strings stored in `position.status`. -/
inductive PStatus where
  | INITIALIZING | ACTIVE | RISK_PAUSED | COMPLETED | CLOSED | ERROR
  deriving DecidableEq, Repr

/-- Strings stored in `position.orderStatus`. -/
inductive OrderStat where
  | NONE | ACTIVE | CANCELLED | CANCELLED_CLOSE | CANCELLED_RISK
  | CANCELLED_UPDATE | COMPLETED | ERROR
  deriving DecidableEq, Repr

/-- Externally visible gateway calls made by a handler. -/
inductive Action where
  | trackCancelled (orderHash : String)
  | cancel (orderHash : String)
  | post (betSizeUSDC : ℚ) (impliedOdds : ℚ) (isMakerBettingOutcomeOne : Bool)
  deriving DecidableEq, Repr

/-- Whether an action submits a new order. -/
def Action.isPost : Action → Bool
  | .post _ _ _ => true
  | _ => false

/-- Outcomes of the gateway calls a handler may make:
`cancelResult` is `cancelOrder`'s `cancelledCount` (or a thrown error),
`postResult` is `postMakerOrder`'s `orderHash` (or a thrown error). -/
structure Env where
  cancelResult : Except Unit ℕ
  postResult : Except Unit String
  deriving Repr

/-- The fields of a position record read or written by the embedded
handlers. -/
structure Position where
  status : PStatus
  orderStatus : OrderStat
  activeOrderHash : Option String
  pastOrderHashes : List String
  fillAmount : ℚ
  fillPercentage : ℚ
  maxFillAmount : ℚ
  premium : ℚ
  maxVig : ℚ
  minLiquidity : ℚ
  minBetSizeOdds : ℚ
  minBetSizeVig : ℚ
  outcomeIndex : ℕ
  bestTakerOdds : Option ℚ
  currentVig : Option ℚ
  currentLiquidity1 : Option ℚ
  currentLiquidity2 : Option ℚ
  lastOrderOdds : Option ℚ
  isRiskThresholdBreached : Bool
  deriving DecidableEq, Repr

/-- The market-data payload delivered by the monitor
(`updateMarketData(positionId, marketData)`). -/
structure MarketData where
  bestTakerOdds : Option ℚ
  vig : Option ℚ
  liquidity1 : Option ℚ
  liquidity2 : Option ℚ
  deriving DecidableEq, Repr

/-- Function `checkRiskThresholds` (positionManager.js): vig above `maxVig`, or
liquidity below `minLiquidity` on either outcome (null fields skipped). -/
def checkRiskThresholds (position : Position) : Bool :=
  (match position.currentVig with
   | some vig => decide (position.maxVig < vig)
   | none => false) ||
  (match position.currentLiquidity1 with
   | some liq => decide (liq < position.minLiquidity)
   | none => false) ||
  (match position.currentLiquidity2 with
   | some liq => decide (liq < position.minLiquidity)
   | none => false)

/-- Function `applyPremium` (positionManager.js).  JavaScript coerces a `null`
`bestTakerOdds` to `0` in the multiplication. -/
def applyPremium (impliedOdds : Option ℚ) (premium : ℚ) : ℚ :=
  let premiumDecimal := premium / 100
  (impliedOdds.getD 0) * (1 - premiumDecimal)

/-- The tail of `updateOrderForPosition` after the cancellation step:
unless risk is breached or the position is fully filled, post a
replacement for the remaining stake at the premium-adjusted,
ladder-rounded odds. -/
def updateOrderRest (env : Env) (position : Position) (trace : List Action) :
    Position × List Action :=
  if position.isRiskThresholdBreached then (position, trace)
  else if position.maxFillAmount - position.fillAmount ≤ 0 then
    ({ position with status := PStatus.COMPLETED }, trace)
  else
    match env.postResult with
    | .ok orderHash =>
      ({ position with
          activeOrderHash := some orderHash
          lastOrderOdds := position.bestTakerOdds
          orderStatus := OrderStat.ACTIVE },
        trace ++ [Action.post (position.maxFillAmount - position.fillAmount)
          (roundToNearestStep (applyPremium position.bestTakerOdds position.premium))
          (position.outcomeIndex = 1)])
    | .error _ =>
      ({ position with orderStatus := OrderStat.ERROR },
        trace ++ [Action.post (position.maxFillAmount - position.fillAmount)
          (roundToNearestStep (applyPremium position.bestTakerOdds position.premium))
          (position.outcomeIndex = 1)])

/-- Function `updateOrderForPosition` (positionManager.js): cancel the active order
(if any, tracking it for late fills), then continue with
`updateOrderRest`; a thrown cancel error aborts. -/
def updateOrderForPosition (env : Env) (position : Position) : Position × List Action :=
  match position.activeOrderHash with
  | some orderHash =>
    match env.cancelResult with
    | .error _ => (position, [Action.trackCancelled orderHash, Action.cancel orderHash])
    | .ok cancelledCount =>
      if cancelledCount = 0 ∧ position.status = PStatus.COMPLETED then
        ({ position with activeOrderHash := none, orderStatus := OrderStat.COMPLETED },
          [Action.trackCancelled orderHash, Action.cancel orderHash])
      else
        updateOrderRest env
          { position with activeOrderHash := none, orderStatus := OrderStat.CANCELLED_UPDATE }
          [Action.trackCancelled orderHash, Action.cancel orderHash]
  | none => updateOrderRest env position []

/-- Function `handleRiskThresholdBreach` (positionManager.js): cancel any active
order (tracking it for late fills) and pause; a thrown cancel error skips
the remaining mutations. -/
def handleRiskThresholdBreach (env : Env) (position : Position) : Position × List Action :=
  match position.activeOrderHash with
  | some orderHash =>
    let tracked := [Action.trackCancelled orderHash, Action.cancel orderHash]
    match env.cancelResult with
    | .error _ => (position, tracked)
    | .ok _ =>
      ({ position with
          activeOrderHash := none
          orderStatus := OrderStat.CANCELLED_RISK
          status := PStatus.RISK_PAUSED }, tracked)
  | none => ({ position with status := PStatus.RISK_PAUSED }, [])

/-- Function `handleRiskThresholdResolution` (positionManager.js). -/
def handleRiskThresholdResolution (env : Env) (position : Position) : Position × List Action :=
  if position.status = PStatus.RISK_PAUSED then
    updateOrderForPosition env { position with status := PStatus.ACTIVE }
  else (position, [])

/-- The market-data assignment at the top of `updateMarketData`. -/
def applyMarketData (position : Position) (marketData : MarketData) : Position :=
  { position with
      bestTakerOdds := marketData.bestTakerOdds
      currentVig := marketData.vig
      currentLiquidity1 := marketData.liquidity1
      currentLiquidity2 := marketData.liquidity2 }

/-- Function `updateMarketData` (positionManager.js): store the new metrics, react
to risk-state flips, otherwise reprice the active order subject to the
rate limit (`now` and `lastUpdate` are the timestamps the code reads). -/
def updateMarketData (env : Env) (now lastUpdate : ℤ) (position : Position)
    (marketData : MarketData) : Position × List Action :=
  if checkRiskThresholds (applyMarketData position marketData)
      ≠ (applyMarketData position marketData).isRiskThresholdBreached then
    if checkRiskThresholds (applyMarketData position marketData) then
      handleRiskThresholdBreach env
        { applyMarketData position marketData with
            isRiskThresholdBreached := checkRiskThresholds (applyMarketData position marketData) }
    else
      handleRiskThresholdResolution env
        { applyMarketData position marketData with
            isRiskThresholdBreached := checkRiskThresholds (applyMarketData position marketData) }
  else
    if ¬checkRiskThresholds (applyMarketData position marketData) ∧
        (applyMarketData position marketData).activeOrderHash ≠ none ∧
        (applyMarketData position marketData).bestTakerOdds
          ≠ (applyMarketData position marketData).lastOrderOdds then
      if now - lastUpdate < MIN_ORDER_UPDATE_INTERVAL then
        (applyMarketData position marketData, [])
      else updateOrderForPosition env (applyMarketData position marketData)
    else (applyMarketData position marketData, [])

/-- The body of `updateFillStatus` after the fill fields have been
stored: mark complete past the threshold (cancelling any live order),
otherwise reprice a part-filled live order. -/
def updateFillStatusChecked (env : Env) (position : Position) : Position × List Action :=
  if FILL_COMPLETION_THRESHOLD * 100 ≤ position.fillPercentage then
    match position.activeOrderHash with
    | some orderHash =>
      match env.cancelResult with
      | .error _ => ({ position with status := PStatus.COMPLETED }, [Action.cancel orderHash])
      | .ok _ =>
        ({ position with
            status := PStatus.COMPLETED
            activeOrderHash := none
            pastOrderHashes := []
            orderStatus := OrderStat.CANCELLED }, [Action.cancel orderHash])
    | none => ({ position with status := PStatus.COMPLETED }, [])
  else
    if position.activeOrderHash ≠ none ∧ ¬position.isRiskThresholdBreached then
      updateOrderForPosition env position
    else (position, [])

/-- Function `updateFillStatus` (positionManager.js): record the absolute fill
and its percentage, then run the completion check. -/
def updateFillStatus (env : Env) (position : Position) (fillAmountWire : ℤ) :
    Position × List Action :=
  updateFillStatusChecked env
    { position with
        fillAmount := toNominalAmount fillAmountWire
        fillPercentage := toNominalAmount fillAmountWire / position.maxFillAmount * 100 }

/-! ## Websocket orderbook updates (`handleOrderbookUpdate`, marketMonitor.js)

Only the orderbook mutation performed by `handleOrderbookUpdate` is
embedded here; the fill-event dispatch for our own orders reaches the
position manager through `updateFillStatus`, modelled above. -/

/-- One delta of the websocket stream, after destructuring the raw
10-tuple (the unused `expiry`, `apiExpiry` and `salt` slots are omitted;
no recency timestamp is present in the tuple or kept in the book). -/
structure WsUpdate where
  orderHash : String
  status : String
  fillAmount : ℤ
  maker : String
  totalBetSize : ℤ
  percentageOdds : ℤ
  isMakerBettingOutcomeOne : Bool
  deriving DecidableEq, Repr

/-- The new-order construction in the `ACTIVE` branch of
`handleOrderbookUpdate`. -/
def mkOrderFromUpdate (update : WsUpdate) : ProcessedOrder :=
  { orderHash := update.orderHash
    maker := update.maker
    totalBetSize := update.totalBetSize
    fillAmount := update.fillAmount
    percentageOdds := update.percentageOdds
    impliedOdds := toImpliedOdds update.percentageOdds
    takerImpliedOdds := calculateTakerImpliedOdds update.percentageOdds
    nominalBetSize := toNominalAmount update.totalBetSize
    nominalFillAmount := toNominalAmount update.fillAmount
    remainingSize := toNominalAmount (update.totalBetSize - update.fillAmount)
    isMakerBettingOutcomeOne := update.isMakerBettingOutcomeOne
    outcome := if update.isMakerBettingOutcomeOne then 1 else 2 }

/-- The in-place mutation of an existing entry in the `ACTIVE` branch:
only the fill fields are overwritten (the remaining size is recomputed
from the update's `totalBetSize`). -/
def overwriteFill (update : WsUpdate) (order : ProcessedOrder) : ProcessedOrder :=
  { order with
      fillAmount := update.fillAmount
      nominalFillAmount := toNominalAmount update.fillAmount
      remainingSize := toNominalAmount (update.totalBetSize - update.fillAmount) }

/-- Insert-or-replace by `orderHash` (the `findIndex`/`push` logic of the
`ACTIVE` branch). -/
def upsertOrder (update : WsUpdate) : List ProcessedOrder → List ProcessedOrder
  | [] => [mkOrderFromUpdate update]
  | order :: rest =>
    if order.orderHash = update.orderHash then overwriteFill update order :: rest
    else order :: upsertOrder update rest

/-- Removal by `orderHash` (the `splice` of the `INACTIVE` branch). -/
def removeOrder (orderHash : String) : List ProcessedOrder → List ProcessedOrder
  | [] => []
  | order :: rest =>
    if order.orderHash = orderHash then rest else order :: removeOrder orderHash rest

/-- Membership test by `orderHash` (`findIndex >= 0`). -/
def containsOrder (orderHash : String) (orders : List ProcessedOrder) : Bool :=
  orders.any (fun order => order.orderHash == orderHash)

/-- Model of JavaScript `toLowerCase` on one ASCII character. -/
def charToLower (c : Char) : Char :=
  if 'A' ≤ c ∧ c ≤ 'Z' then Char.ofNat (c.toNat + 32) else c

/-- Model of JavaScript `String.prototype.toLowerCase` for the ASCII
addresses compared in `handleOrderbookUpdate`. -/
def toLowerString (s : String) : String := ⟨s.data.map charToLower⟩

/-- One iteration of the update loop of `handleOrderbookUpdate`,
restricted to its effect on the book: skip deltas with a missing
`orderHash` or `maker`, skip our own orders (case-insensitively), apply
`ACTIVE` deltas by insert-or-replace into the maker-outcome bucket and
`INACTIVE` deltas by removing from whichever bucket holds the hash.
No timestamp or recency comparison is performed anywhere. -/
def applyOrderbookUpdate (selfMaker : String) (orderbook : Orderbook) (update : WsUpdate) :
    Orderbook :=
  if update.orderHash = "" ∨ update.maker = "" then orderbook
  else if toLowerString update.maker = toLowerString selfMaker then orderbook
  else if update.status = "ACTIVE" then
    if update.isMakerBettingOutcomeOne then
      { orderbook with orders1 := upsertOrder update orderbook.orders1 }
    else
      { orderbook with orders2 := upsertOrder update orderbook.orders2 }
  else if update.status = "INACTIVE" then
    if containsOrder update.orderHash orderbook.orders1 then
      { orderbook with orders1 := removeOrder update.orderHash orderbook.orders1 }
    else
      { orderbook with orders2 := removeOrder update.orderHash orderbook.orders2 }
  else orderbook

/-- The whole delta batch of `handleOrderbookUpdate`, folded over the
book. -/
def handleOrderbookUpdateBook (selfMaker : String) (orderbook : Orderbook)
    (updates : List WsUpdate) : Orderbook :=
  updates.foldl (applyOrderbookUpdate selfMaker) orderbook

/-! ## Order gateway (`postMakerOrder`, orderManager.js) -/

/-- Odds preparation of `postMakerOrder` up to the first transmission
attempt: the returned value is the implied odds actually submitted to the
venue.  A `none` result would mean aborting before transmission, which
the code never does — off-ladder odds are rounded to the nearest step
(with a warning) and then submitted. -/
def postMakerOrderTransmittedOdds (impliedOdds : ℚ) : Option ℚ :=
  if checkOddsLadderValid (impliedToApiOdds impliedOdds) then some impliedOdds
  else some (roundToNearestStep impliedOdds)

/-! ## Specification-side definitions

These definitions are modelled from the words of the specification (and of
the claims derived from it), to be compared with the source-derived
functions above. -/

/-- Whether a raw maker order bets the outcome opposite to `outcome`
(spec wording: a maker order "betting the opposite side"). -/
def makerBetsOpposite (outcome : ℕ) (order : RawOrder) : Bool :=
  if outcome = 1 then !order.isMakerBettingOutcomeOne else order.isMakerBettingOutcomeOne

/-- Modelled from the spec: a maker order qualifies for the best-odds
computation of a side when it bets the opposite outcome, is not ours, and
its remaining maker stake (in stake units) meets the threshold. -/
def qualifiesSpec (selfMaker : String) (minStake : ℚ) (outcome : ℕ) (order : RawOrder) : Bool :=
  decide (order.maker ≠ selfMaker) && makerBetsOpposite outcome order &&
    decide (minStake ≤ toNominalAmount (order.totalBetSize - order.fillAmount))

/-- Modelled from the spec: `bestTakerOdds[side]` is `1 − max(makerOdds
over opposite-side maker orders with remainingMakerStake ≥ minForOdds,
excluding our own)`, `null` if no qualifying order. -/
def bestTakerOddsSpec (selfMaker : String) (orders : List RawOrder) (minForOdds : ℚ)
    (outcome : ℕ) : Option ℚ :=
  match ((orders.filter (qualifiesSpec selfMaker minForOdds outcome)).map
      (fun order => toImpliedOdds order.percentageOdds)).max? with
  | some bestMakerOdds => some (1 - bestMakerOdds)
  | none => none

/-- Modelled from the spec (claim C2): `vig = bestTakerOdds[A] +
bestTakerOdds[B] − 1` with qualification under `minForVig`, `null` when
either side lacks a qualifying order. -/
def vigSpecClaim (selfMaker : String) (orders : List RawOrder) (minForVig : ℚ) : Option ℚ :=
  match bestTakerOddsSpec selfMaker orders minForVig 1,
      bestTakerOddsSpec selfMaker orders minForVig 2 with
  | some b1, some b2 => some (b1 + b2 - 1)
  | _, _ => none

/-- The vig the code actually computes, as a function of the snapshot:
both sides qualified under `minForOdds`, and the excess scaled to
percentage points. -/
def vigSpecAmended (selfMaker : String) (orders : List RawOrder) (minForOdds : ℚ) : Option ℚ :=
  match bestTakerOddsSpec selfMaker orders minForOdds 1,
      bestTakerOddsSpec selfMaker orders minForOdds 2 with
  | some b1, some b2 => some ((b1 + b2 - 1) * 100)
  | _, _ => none

/-- Modelled from the spec (claim C3): `liquidity[side]` is the sum of
remaining taker capacity over all maker orders betting the opposite side,
excluding ours. -/
def liquiditySpecClaim (selfMaker : String) (orders : List RawOrder) (outcome : ℕ) : ℚ :=
  ((orders.filter (fun order =>
      decide (order.maker ≠ selfMaker) && makerBetsOpposite outcome order)).map
    (fun order =>
      calculateRemainingTakerSpace order.totalBetSize order.fillAmount order.percentageOdds)).sum

/-- The liquidity the code actually computes, as a function of the
snapshot: the sum of remaining maker stake (in stake units) over the maker
orders betting that same outcome, excluding ours. -/
def liquiditySpecAmended (selfMaker : String) (orders : List RawOrder) (outcome : ℕ) : ℚ :=
  ((orders.filter (fun order =>
      (if outcome = 1 then order.isMakerBettingOutcomeOne else !order.isMakerBettingOutcomeOne)
        && decide (order.maker ≠ selfMaker))).map
    (fun order => toNominalAmount (order.totalBetSize - order.fillAmount))).sum

/-! ## Refinement lemmas: snapshot metrics versus the specification -/

/-- Filtering the processed image of a filtered snapshot is filtering the
snapshot itself. -/
lemma processOrders_filter (selfMaker : String) (g : RawOrder → Bool)
    (p : ProcessedOrder → Bool) (orders : List RawOrder) :
    (processOrders selfMaker (orders.filter g)).filter p
      = (orders.filter (fun r =>
          g r && (decide (r.maker ≠ selfMaker) && p (mkProcessedOrder r)))).map
        mkProcessedOrder := by
  unfold processOrders
  rw [List.filter_map, List.filter_filter, List.filter_filter]
  refine congrArg _ (List.filter_congr fun r _ => ?_)
  cases hg : g r <;> cases hm : decide (r.maker ≠ selfMaker) <;>
    cases hp : p (mkProcessedOrder r) <;> simp_all [Function.comp]

/-- The orders of a snapshot-built book that are eligible for a side's
best-odds computation are exactly the processed images of the raw orders
qualifying under the spec's wording. -/
lemma eligible_eq_qualifying (selfMaker : String) (raw : List RawOrder) (minBetSizeOdds : ℚ)
    (outcome : ℕ) (houtcome : outcome = 1 ∨ outcome = 2) :
    ((orderbookFromSnapshot selfMaker raw).orders1
        ++ (orderbookFromSnapshot selfMaker raw).orders2).filter
      (eligibleForOutcome minBetSizeOdds outcome)
      = (raw.filter (qualifiesSpec selfMaker minBetSizeOdds outcome)).map mkProcessedOrder := by
  rw [List.filter_append]
  unfold orderbookFromSnapshot
  rw [processOrders_filter, processOrders_filter]
  rcases houtcome with h | h <;> subst h
  · rw [show (raw.filter (fun r =>
        r.isMakerBettingOutcomeOne &&
          (decide (r.maker ≠ selfMaker) &&
            eligibleForOutcome minBetSizeOdds 1 (mkProcessedOrder r)))) = [] from
      List.filter_eq_nil_iff.mpr fun r _ => by
        cases hf : r.isMakerBettingOutcomeOne <;>
          simp [hf, eligibleForOutcome, mkProcessedOrder]]
    rw [List.map_nil, List.nil_append]
    refine congrArg _ (List.filter_congr fun r _ => ?_)
    cases hf : r.isMakerBettingOutcomeOne <;>
      cases hm : decide (r.maker ≠ selfMaker) <;>
        simp_all [eligibleForOutcome, mkProcessedOrder, qualifiesSpec, makerBetsOpposite,
          Bool.and_assoc]
  · rw [show (raw.filter (fun r =>
        (!r.isMakerBettingOutcomeOne) &&
          (decide (r.maker ≠ selfMaker) &&
            eligibleForOutcome minBetSizeOdds 2 (mkProcessedOrder r)))) = [] from
      List.filter_eq_nil_iff.mpr fun r _ => by
        cases hf : r.isMakerBettingOutcomeOne <;>
          simp [hf, eligibleForOutcome, mkProcessedOrder]]
    rw [List.map_nil, List.append_nil]
    refine congrArg _ (List.filter_congr fun r _ => ?_)
    cases hf : r.isMakerBettingOutcomeOne <;>
      cases hm : decide (r.maker ≠ selfMaker) <;>
        simp_all [eligibleForOutcome, mkProcessedOrder, qualifiesSpec, makerBetsOpposite,
          Bool.and_assoc]

/-- On a snapshot-built book, the code's best-taker-odds computation
matches the specification formula. -/
lemma bestTakerOddsFor_snapshot (selfMaker : String) (raw : List RawOrder)
    (minBetSizeOdds : ℚ) (outcome : ℕ) (houtcome : outcome = 1 ∨ outcome = 2) :
    bestTakerOddsFor (orderbookFromSnapshot selfMaker raw) minBetSizeOdds outcome
      = bestTakerOddsSpec selfMaker raw minBetSizeOdds outcome := by
  unfold bestTakerOddsFor bestTakerOddsSpec
  rw [eligible_eq_qualifying selfMaker raw minBetSizeOdds outcome houtcome]
  simp only [List.map_map]
  rfl

/-- Folding the liquidity sum equals summing the mapped remaining
sizes. -/
lemma liquidityFor_aux (a : ℚ) (orders : List ProcessedOrder) :
    orders.foldl (fun sum order => sum + order.remainingSize) a
      = a + (orders.map (·.remainingSize)).sum := by
  induction orders generalizing a with
  | nil => simp
  | cons o rest ih => simp [List.foldl_cons, ih, add_assoc]

/-- Closed form of `liquidityFor`. -/
lemma liquidityFor_eq_sum (orders : List ProcessedOrder) :
    liquidityFor orders = (orders.map (·.remainingSize)).sum := by
  unfold liquidityFor
  rw [liquidityFor_aux, zero_add]

/-- On a snapshot-built book, the code's per-outcome liquidity is the sum
of remaining maker stake over the same-side raw orders, excluding
ours. -/
lemma liquidityFor_snapshot (selfMaker : String) (raw : List RawOrder) (g : RawOrder → Bool) :
    liquidityFor (processOrders selfMaker (raw.filter g))
      = ((raw.filter (fun r => g r && decide (r.maker ≠ selfMaker))).map
          (fun r => toNominalAmount (r.totalBetSize - r.fillAmount))).sum := by
  rw [liquidityFor_eq_sum]
  unfold processOrders
  rw [List.map_map, List.filter_filter]
  refine congrArg _ (congrArg _ (List.filter_congr fun r _ => ?_))
  cases hg : g r <;> cases hm : decide (r.maker ≠ selfMaker) <;> simp_all

/-- The `MarketData` payload `handleOrderbookUpdate` and
`initializeOrderbook` deliver to a position through `updateMarketData`:
the side-indexed best taker odds (`bestTakerOdds[pos.outcomeIndex]`), the
common vig and both liquidity figures. -/
def reportedMarketData (orderbook : Orderbook) (position : Position) : MarketData :=
  let metrics := calculateOrderbookMetrics orderbook position.minBetSizeOdds
  { bestTakerOdds :=
      if position.outcomeIndex = 1 then metrics.bestTakerOdds1 else metrics.bestTakerOdds2
    vig := metrics.vig
    liquidity1 := some metrics.liquidity1
    liquidity2 := some metrics.liquidity2 }

/-! ## Sample data used by witnesses and counterexamples -/

/-- Our own maker address in the concrete scenarios. -/
def selfAddr : String := "0xSELF"

/-- A foreign maker order betting outcome 2 at implied odds 0.5, stake
100 USDC, unfilled. -/
def rawA : RawOrder :=
  { orderHash := "0xa", maker := "0xmaker1", totalBetSize := 100000000, fillAmount := 0
    percentageOdds := 50000000000000000000, isMakerBettingOutcomeOne := false }

/-- A foreign maker order betting outcome 1 at implied odds 0.4, stake
100 USDC, unfilled. -/
def rawB : RawOrder :=
  { orderHash := "0xb", maker := "0xmaker2", totalBetSize := 100000000, fillAmount := 0
    percentageOdds := 40000000000000000000, isMakerBettingOutcomeOne := true }

/-- A baseline position record on outcome 1. -/
def posW : Position :=
  { status := PStatus.ACTIVE, orderStatus := OrderStat.ACTIVE, activeOrderHash := none
    pastOrderHashes := [], fillAmount := 0, fillPercentage := 0, maxFillAmount := 100
    premium := 10, maxVig := 5, minLiquidity := 0, minBetSizeOdds := 10, minBetSizeVig := 200
    outcomeIndex := 1, bestTakerOdds := none, currentVig := none, currentLiquidity1 := none
    currentLiquidity2 := none, lastOrderOdds := none, isRiskThresholdBreached := false }

/-- An environment in which both gateway calls succeed. -/
def envOk : Env := { cancelResult := Except.ok 1, postResult := Except.ok "0xnew" }

/-! ## Claim C1 -/

/-- C1: for a mirror built from a snapshot, the best taker odds reported
for the position's chosen side equal 1 minus the maximum maker implied
odds over the maker orders betting the opposite side whose remaining
maker stake meets the position's `minBetSizeOdds`, our own orders
excluded; `null` when no order qualifies. -/
theorem bestTakerOdds_reported_eq_spec (selfMaker : String) (raw : List RawOrder)
    (position : Position)
    (houtcome : position.outcomeIndex = 1 ∨ position.outcomeIndex = 2) :
    (reportedMarketData (orderbookFromSnapshot selfMaker raw) position).bestTakerOdds
      = bestTakerOddsSpec selfMaker raw position.minBetSizeOdds position.outcomeIndex := by
  rcases houtcome with h | h <;>
    simp [reportedMarketData, calculateOrderbookMetrics, h,
      bestTakerOddsFor_snapshot selfMaker raw position.minBetSizeOdds 1 (Or.inl rfl),
      bestTakerOddsFor_snapshot selfMaker raw position.minBetSizeOdds 2 (Or.inr rfl)]

/-- Witness for C1 at a concrete snapshot and position. -/
theorem bestTakerOdds_reported_eq_spec_witness :
    (posW.outcomeIndex = 1 ∨ posW.outcomeIndex = 2) ∧
      (reportedMarketData (orderbookFromSnapshot selfAddr [rawA, rawB]) posW).bestTakerOdds
        = bestTakerOddsSpec selfAddr [rawA, rawB] posW.minBetSizeOdds posW.outcomeIndex :=
  ⟨Or.inl rfl,
    bestTakerOdds_reported_eq_spec selfAddr [rawA, rawB] posW (Or.inl rfl)⟩

/-! ## Claim C2 -/

/-- C2 counterexample: on a snapshot with one unfilled 100-USDC order per
side and a position whose `minBetSizeVig` is 200, the claim's vig
(`minForVig` qualification, unscaled) is `null` while the code reports a
vig: the code qualifies under `minBetSizeOdds` and scales by 100. -/
theorem vig_claim_counterexample :
    (reportedMarketData (orderbookFromSnapshot selfAddr [rawA, rawB]) posW).vig
      ≠ vigSpecClaim selfAddr [rawA, rawB] posW.minBetSizeVig := by
  norm_num [reportedMarketData, calculateOrderbookMetrics, bestTakerOddsFor,
    orderbookFromSnapshot, processOrders, mkProcessedOrder, eligibleForOutcome,
    toNominalAmount, toImpliedOdds, calculateTakerImpliedOdds, vigSpecClaim,
    bestTakerOddsSpec, qualifiesSpec, makerBetsOpposite, rawA, rawB, posW, selfAddr,
    List.max?, USDC_DECIMALS, List.filter]
  exact fun h => Option.noConfusion h

/-- C2 amended: the reported vig equals
`(bestTakerOdds[1] + bestTakerOdds[2] − 1) × 100` with both sides
qualified under the position's `minBetSizeOdds` (`minBetSizeVig` is
ignored), and is `null` whenever either side has no order qualifying
under `minBetSizeOdds`. -/
theorem vig_reported_eq_amended_spec (selfMaker : String) (raw : List RawOrder)
    (position : Position) :
    (reportedMarketData (orderbookFromSnapshot selfMaker raw) position).vig
      = vigSpecAmended selfMaker raw position.minBetSizeOdds := by
  unfold reportedMarketData calculateOrderbookMetrics vigSpecAmended
  rw [bestTakerOddsFor_snapshot selfMaker raw position.minBetSizeOdds 1 (Or.inl rfl),
    bestTakerOddsFor_snapshot selfMaker raw position.minBetSizeOdds 2 (Or.inr rfl)]

/-! ## Claim C3 -/

/-- A foreign maker order betting outcome 1 at implied odds 0.5, stake
100 USDC, unfilled. -/
def rawC : RawOrder :=
  { orderHash := "0xc", maker := "0xmaker3", totalBetSize := 100000000, fillAmount := 0
    percentageOdds := 50000000000000000000, isMakerBettingOutcomeOne := true }

/-- C3 counterexample: with a single maker order betting outcome 1, the
claim's liquidity for side 1 (remaining taker capacity of opposite-side
orders) is 0, but the code reports 100: it sums the remaining maker stake
of the orders betting side 1 itself. -/
theorem liquidity_claim_counterexample :
    (reportedMarketData (orderbookFromSnapshot selfAddr [rawC]) posW).liquidity1
      ≠ some (liquiditySpecClaim selfAddr [rawC] 1) := by
  have hm : (!decide (("0xmaker3" : String) = "0xSELF")) = true := by decide
  norm_num [reportedMarketData, calculateOrderbookMetrics, liquidityFor,
    orderbookFromSnapshot, processOrders, mkProcessedOrder, toNominalAmount,
    toImpliedOdds, calculateTakerImpliedOdds, liquiditySpecClaim,
    calculateRemainingTakerSpace, makerBetsOpposite, rawC, posW, selfAddr,
    USDC_DECIMALS, List.filter, hm]

/-- C3 amended: the reported liquidity for each side equals the sum of
remaining maker stake (`totalBetSize − fillAmount`, in stake units) over
the maker orders betting that same side, excluding our own; no taker
capacity conversion is applied. -/
theorem liquidity_reported_eq_amended_spec (selfMaker : String) (raw : List RawOrder)
    (position : Position) :
    (reportedMarketData (orderbookFromSnapshot selfMaker raw) position).liquidity1
        = some (liquiditySpecAmended selfMaker raw 1)
      ∧ (reportedMarketData (orderbookFromSnapshot selfMaker raw) position).liquidity2
        = some (liquiditySpecAmended selfMaker raw 2) := by
  unfold reportedMarketData calculateOrderbookMetrics liquiditySpecAmended
    orderbookFromSnapshot
  constructor <;> simp only [liquidityFor_snapshot] <;> rfl

/-! ## Claim C4 -/

/-- Closed form of `roundToNearestStep`: banker-free round-half-up of
`400·x`, divided by 400. -/
lemma roundToNearestStep_eq (x : ℚ) :
    roundToNearestStep x = (round (400 * x) : ℚ) / 400 := by
  show (round (x * 100 / (1 / 4)) : ℚ) * (1 / 4) / 100 = (round (400 * x) : ℚ) / 400
  rw [show x * 100 / (1 / 4) = 400 * x from by ring]
  ring

/-- C4 counterexample: at implied odds `0.002`, the code returns the
ladder step `0.0025`, which is strictly greater than the input — the
quantization rounds to the nearest step, not down; and at `0.001` it
returns `0` instead of failing with `InvalidOdds`. -/
theorem roundToNearestStep_claim_counterexample :
    roundToNearestStep (2 / 1000) = 1 / 400
      ∧ ¬roundToNearestStep (2 / 1000) ≤ 2 / 1000
      ∧ roundToNearestStep (1 / 1000) = 0 := by
  rw [roundToNearestStep_eq, roundToNearestStep_eq]
  norm_num [round_eq]

/-- C4 amended: `roundToNearestStep` quantizes to the nearest multiple of
the ladder step (`1/400` in implied odds, i.e. 0.25%), within half a step
of the input; it is total and never fails — a result of `0` or `≥ 1` is
returned as-is rather than raising `InvalidOdds`. -/
theorem roundToNearestStep_nearest_multiple (x : ℚ) :
    (∃ k : ℤ, roundToNearestStep x = k / 400)
      ∧ |roundToNearestStep x - x| ≤ 1 / 800 := by
  rw [roundToNearestStep_eq]
  refine ⟨⟨round (400 * x), rfl⟩, ?_⟩
  have h1 : |400 * x - (round (400 * x) : ℚ)| ≤ 1 / 2 := abs_sub_round _
  have h2 : (round (400 * x) : ℚ) / 400 - x = -(400 * x - (round (400 * x) : ℚ)) / 400 := by
    ring
  rw [h2, abs_div, abs_neg]
  rw [show |(400 : ℚ)| = 400 from by norm_num]
  linarith

/-! ## Claim C8 -/

/-- Whenever `x·10^20` is an integer, `impliedToApiOdds` returns it. -/
lemma impliedToApiOdds_of_eq_int (x : ℚ) (n : ℤ) (h : x * 10 ^ 20 = (n : ℚ)) :
    impliedToApiOdds x = some n := by
  unfold impliedToApiOdds
  rw [h]
  simp

/-- Wire image of the concrete off-ladder odds `0.001`. -/
lemma api_odds_of_one_permille : impliedToApiOdds (1 / 1000) = some (10 ^ 17) :=
  impliedToApiOdds_of_eq_int _ _ (by norm_num)

/-- C8 counterexample: implied odds `0.001` are not ladder-valid, yet
`postMakerOrder` does not fail — it transmits the rounded value (here
`0`) to the venue. -/
theorem postMakerOrder_claim_counterexample :
    checkOddsLadderValid (impliedToApiOdds (1 / 1000)) = false
      ∧ postMakerOrderTransmittedOdds (1 / 1000) = some 0 := by
  have hv : checkOddsLadderValid (impliedToApiOdds (1 / 1000)) = false := by
    rw [api_odds_of_one_permille]
    decide
  refine ⟨hv, ?_⟩
  unfold postMakerOrderTransmittedOdds
  rw [hv, roundToNearestStep_eq]
  norm_num [round_eq]

/-- C8 amended: `postMakerOrder` never fails before transmission on
off-ladder odds; it always submits, after rounding off-ladder inputs to
the nearest step, and the odds it transmits are always ladder-valid. -/
theorem postMakerOrder_always_transmits_ladder_valid (x : ℚ) :
    ∃ y, postMakerOrderTransmittedOdds x = some y
      ∧ checkOddsLadderValid (impliedToApiOdds y) = true := by
  unfold postMakerOrderTransmittedOdds
  cases hv : checkOddsLadderValid (impliedToApiOdds x) with
  | true => exact ⟨x, rfl, hv⟩
  | false =>
    refine ⟨roundToNearestStep x, rfl, ?_⟩
    rw [roundToNearestStep_eq]
    have happ : impliedToApiOdds ((round (400 * x) : ℚ) / 400)
        = some (round (400 * x) * (25 * 10 ^ 16)) :=
      impliedToApiOdds_of_eq_int _ _ (by push_cast; ring)
    rw [happ]
    simp only [checkOddsLadderValid, STEP_SIZE_DIVISOR, LADDER_STEP_SIZE]
    rw [show ((10 : ℤ) ^ 16 * 25) = 25 * 10 ^ 16 from by norm_num,
      Int.mul_emod_left]
    rfl

/-! ## Claim C5 -/

/-- The order-repricing tail never touches `fillAmount`. -/
lemma updateOrderRest_fillAmount (env : Env) (position : Position) (trace : List Action) :
    (updateOrderRest env position trace).1.fillAmount = position.fillAmount := by
  unfold updateOrderRest
  split_ifs <;> try rfl
  cases env.postResult <;> rfl

/-- Repricing the order never touches `fillAmount`. -/
lemma updateOrderForPosition_fillAmount (env : Env) (position : Position) :
    (updateOrderForPosition env position).1.fillAmount = position.fillAmount := by
  unfold updateOrderForPosition
  cases position.activeOrderHash with
  | none => rw [updateOrderRest_fillAmount]
  | some orderHash =>
    cases env.cancelResult with
    | error e => rfl
    | ok n =>
      dsimp only
      split_ifs
      · rfl
      · rw [updateOrderRest_fillAmount]

/-- The completion check never touches `fillAmount`. -/
lemma updateFillStatusChecked_fillAmount (env : Env) (position : Position) :
    (updateFillStatusChecked env position).1.fillAmount = position.fillAmount := by
  unfold updateFillStatusChecked
  split_ifs with h1 h2
  · cases position.activeOrderHash with
    | none => rfl
    | some orderHash => cases env.cancelResult <;> rfl
  · rw [updateOrderForPosition_fillAmount]
  · rfl

/-- C5 counterexample: a position already filled for 20 USDC that
receives a fill event reporting an absolute fill of 10 USDC ends with
`fillAmount = 10`, not `max 20 10 = 20` — the handler assigns the
incoming value unconditionally. -/
theorem updateFillStatus_claim_counterexample :
    (updateFillStatus envOk { posW with fillAmount := 20, fillPercentage := 20 }
        10000000).1.fillAmount
      ≠ max ((20 : ℚ)) (toNominalAmount 10000000) := by
  norm_num [updateFillStatus, updateFillStatusChecked, toNominalAmount,
    USDC_DECIMALS, posW, envOk, FILL_COMPLETION_THRESHOLD]

/-- C5 amended: processing a fill event sets `fillAmount` to the incoming
absolute amount unconditionally — no `max` with the previous value is
taken, so `fillAmount` is not monotone and decreases when a smaller
absolute fill arrives. -/
theorem updateFillStatus_sets_absolute (env : Env) (position : Position)
    (fillAmountWire : ℤ) :
    (updateFillStatus env position fillAmountWire).1.fillAmount
      = toNominalAmount fillAmountWire := by
  unfold updateFillStatus
  rw [updateFillStatusChecked_fillAmount]

/-! ## Claim C6 -/

/-- C6 counterexample: with `maxFillAmount = 100` and a fill of exactly
99 USDC (99% ≥ the claim's 0.99 threshold), the position does not
complete: the code's threshold is 0.995. -/
theorem completion_claim_counterexample :
    toNominalAmount 99000000 ≥ posW.maxFillAmount * (99 / 100)
      ∧ (updateFillStatus envOk posW 99000000).1.status ≠ PStatus.COMPLETED := by
  constructor
  · norm_num [toNominalAmount, USDC_DECIMALS, posW]
  · norm_num [updateFillStatus, updateFillStatusChecked, toNominalAmount,
      USDC_DECIMALS, posW, envOk, FILL_COMPLETION_THRESHOLD]
    decide

/-- C6 amended: for an active position, a fill event whose absolute fill
reaches `maxFillAmount × 0.995` (the code's `FILL_COMPLETION_THRESHOLD`,
not 0.99) moves the position to `COMPLETED`, clears the active order and
issues its cancellation. -/
theorem updateFillStatus_completes (env : Env) (position : Position) (fillAmountWire : ℤ)
    (k : ℕ) (hcancel : env.cancelResult = Except.ok k)
    (hmax : 0 < position.maxFillAmount)
    (hstatus : position.status = PStatus.ACTIVE)
    (hfill : position.maxFillAmount * FILL_COMPLETION_THRESHOLD
      ≤ toNominalAmount fillAmountWire) :
    (updateFillStatus env position fillAmountWire).1.status = PStatus.COMPLETED
      ∧ (updateFillStatus env position fillAmountWire).1.activeOrderHash = none
      ∧ ∀ orderHash, position.activeOrderHash = some orderHash →
          Action.cancel orderHash ∈ (updateFillStatus env position fillAmountWire).2 := by
  have hcond : FILL_COMPLETION_THRESHOLD * 100
      ≤ toNominalAmount fillAmountWire / position.maxFillAmount * 100 := by
    have h1 : FILL_COMPLETION_THRESHOLD
        ≤ toNominalAmount fillAmountWire / position.maxFillAmount :=
      (le_div_iff₀ hmax).mpr (by linarith)
    linarith
  unfold updateFillStatus updateFillStatusChecked
  dsimp only
  rw [if_pos hcond]
  cases hao : position.activeOrderHash with
  | none => exact ⟨rfl, rfl, fun o h => Option.noConfusion h⟩
  | some orderHash =>
    rw [hcancel]
    refine ⟨rfl, rfl, fun o h => ?_⟩
    injection h with h2
    subst h2
    exact List.mem_singleton.mpr rfl

/-- Witness for C6: a 99.5-USDC fill against `maxFillAmount = 100`
completes the position and cancels its live order. -/
theorem updateFillStatus_completes_witness :
    (envOk.cancelResult = Except.ok 1
        ∧ 0 < (100 : ℚ)
        ∧ ({ posW with activeOrderHash := some "0xord" } : Position).status = PStatus.ACTIVE
        ∧ (100 : ℚ) * FILL_COMPLETION_THRESHOLD ≤ toNominalAmount 99500000)
      ∧ (updateFillStatus envOk { posW with activeOrderHash := some "0xord" }
            99500000).1.status = PStatus.COMPLETED
      ∧ (updateFillStatus envOk { posW with activeOrderHash := some "0xord" }
            99500000).1.activeOrderHash = none
      ∧ Action.cancel "0xord"
          ∈ (updateFillStatus envOk { posW with activeOrderHash := some "0xord" } 99500000).2 := by
  have hf : (100 : ℚ) * FILL_COMPLETION_THRESHOLD ≤ toNominalAmount 99500000 := by
    norm_num [FILL_COMPLETION_THRESHOLD, toNominalAmount, USDC_DECIMALS]
  obtain ⟨h1, h2, h3⟩ := updateFillStatus_completes envOk
    { posW with activeOrderHash := some "0xord" } 99500000 1 rfl (by norm_num [posW]) rfl hf
  exact ⟨⟨rfl, by norm_num, rfl, hf⟩, h1, h2, h3 "0xord" rfl⟩

/-! ## Claim C10 -/

/-- C10: the taker-space computation is total and guarded — zero on a
non-positive remaining maker amount and on non-positive odds (the
division is never reached with a zero divisor), and otherwise the
integer-divide formula converted to nominal units. -/
theorem calculateRemainingTakerSpace_guarded (totalBetSize fillAmount percentageOdds : ℤ) :
    (totalBetSize - fillAmount ≤ 0 →
        calculateRemainingTakerSpace totalBetSize fillAmount percentageOdds = 0)
      ∧ (percentageOdds ≤ 0 →
        calculateRemainingTakerSpace totalBetSize fillAmount percentageOdds = 0)
      ∧ (0 < totalBetSize - fillAmount → 0 < percentageOdds →
        calculateRemainingTakerSpace totalBetSize fillAmount percentageOdds
          = toNominalAmount
              ((totalBetSize - fillAmount) * 10 ^ 20 / percentageOdds
                - (totalBetSize - fillAmount))) := by
  unfold calculateRemainingTakerSpace
  refine ⟨fun h => ?_, fun h => ?_, fun h1 h2 => ?_⟩ <;>
    split_ifs <;> first | rfl | linarith

/-- Witness for C10 on a half-filled order at implied odds 0.5. -/
theorem calculateRemainingTakerSpace_guarded_witness :
    (0 < (100000000 : ℤ) - 50000000 ∧ 0 < (50000000000000000000 : ℤ))
      ∧ calculateRemainingTakerSpace 100000000 50000000 50000000000000000000
        = toNominalAmount
            ((100000000 - 50000000) * 10 ^ 20 / 50000000000000000000
              - (100000000 - 50000000)) :=
  ⟨⟨by norm_num, by norm_num⟩,
    (calculateRemainingTakerSpace_guarded 100000000 50000000 50000000000000000000).2.2
      (by norm_num) (by norm_num)⟩

/-! ## Claim C7 -/

/-- A websocket delta re-announcing order `0xx` with its original (stale)
zero fill. -/
def updX : WsUpdate :=
  { orderHash := "0xx", status := "ACTIVE", fillAmount := 0, maker := "0xmaker4"
    totalBetSize := 100000000, percentageOdds := 50000000000000000000
    isMakerBettingOutcomeOne := true }

/-- The stored entry for order `0xx`, already half filled. -/
def ordX : ProcessedOrder :=
  { orderHash := "0xx", maker := "0xmaker4", totalBetSize := 100000000
    fillAmount := 50000000, percentageOdds := 50000000000000000000
    impliedOdds := toImpliedOdds 50000000000000000000
    takerImpliedOdds := calculateTakerImpliedOdds 50000000000000000000
    nominalBetSize := toNominalAmount 100000000
    nominalFillAmount := toNominalAmount 50000000
    remainingSize := toNominalAmount 50000000
    isMakerBettingOutcomeOne := true, outcome := 1 }

/-- A mirror state holding the half-filled order `0xx`. -/
def obStale : Orderbook := { orders1 := [ordX], orders2 := [] }

/-- C7 counterexample: replaying the delta that originally created order
`0xx` (fill 0) against a mirror in which the order is stored half filled
changes the mirror — the stored fill is reset to 0.  The mirror keeps no
`updateTime` and performs no recency check, so the stale delta is applied
rather than dropped. -/
theorem staleDelta_claim_counterexample :
    (applyOrderbookUpdate selfAddr obStale updX).orders1.map (·.fillAmount) = [0]
      ∧ obStale.orders1.map (·.fillAmount) = [50000000]
      ∧ applyOrderbookUpdate selfAddr obStale updX ≠ obStale := by
  have h1 : applyOrderbookUpdate selfAddr obStale updX
      = { orders1 := [overwriteFill updX ordX], orders2 := [] } := by
    rfl
  refine ⟨by rw [h1]; rfl, rfl, fun h => ?_⟩
  have h2 := congrArg (fun ob => ob.orders1.map (·.fillAmount)) h
  rw [h1] at h2
  simp [overwriteFill, obStale, ordX, updX] at h2

/-- Result of looking up `orderHash` after an `ACTIVE` upsert: the
update's fill data, whatever was stored before. -/
lemma find?_upsertOrder (u : WsUpdate) (l : List ProcessedOrder) :
    (upsertOrder u l).find? (fun o => o.orderHash == u.orderHash)
      = some (match l.find? (fun o => o.orderHash == u.orderHash) with
          | some o => overwriteFill u o
          | none => mkOrderFromUpdate u) := by
  induction l with
  | nil => simp [upsertOrder, mkOrderFromUpdate]
  | cons o rest ih =>
    by_cases h : o.orderHash = u.orderHash
    · simp [upsertOrder, h, overwriteFill]
    · simp [upsertOrder, h, ih]

/-- C7 amended: the mirror tracks no `updateTime` and drops nothing by
recency — every well-formed `ACTIVE` delta from a foreign maker
overwrites the stored fill state of its `orderId` (or inserts the order),
regardless of which data is newer. -/
theorem activeDelta_always_overwrites (selfMaker : String) (orderbook : Orderbook)
    (u : WsUpdate) (hstatus : u.status = "ACTIVE") (hhash : u.orderHash ≠ "")
    (hmaker : u.maker ≠ "") (hself : toLowerString u.maker ≠ toLowerString selfMaker) :
    ((if u.isMakerBettingOutcomeOne then (applyOrderbookUpdate selfMaker orderbook u).orders1
        else (applyOrderbookUpdate selfMaker orderbook u).orders2).find?
      (fun o => o.orderHash == u.orderHash))
      = some (match (if u.isMakerBettingOutcomeOne then orderbook.orders1
            else orderbook.orders2).find? (fun o => o.orderHash == u.orderHash) with
          | some o => overwriteFill u o
          | none => mkOrderFromUpdate u) := by
  unfold applyOrderbookUpdate
  rw [if_neg (not_or.mpr ⟨hhash, hmaker⟩), if_neg hself, if_pos hstatus]
  cases hb : u.isMakerBettingOutcomeOne <;> simp [hb, find?_upsertOrder]

/-- Witness for C7's amended statement on the stale replay scenario. -/
theorem activeDelta_always_overwrites_witness :
    (updX.status = "ACTIVE" ∧ updX.orderHash ≠ "" ∧ updX.maker ≠ ""
        ∧ toLowerString updX.maker ≠ toLowerString selfAddr)
      ∧ ((if updX.isMakerBettingOutcomeOne then (applyOrderbookUpdate selfAddr obStale updX).orders1
            else (applyOrderbookUpdate selfAddr obStale updX).orders2).find?
          (fun o => o.orderHash == updX.orderHash))
        = some (match (if updX.isMakerBettingOutcomeOne then obStale.orders1
              else obStale.orders2).find? (fun o => o.orderHash == updX.orderHash) with
            | some o => overwriteFill updX o
            | none => mkOrderFromUpdate updX) :=
  ⟨⟨rfl, by decide, by decide, by decide⟩,
    activeDelta_always_overwrites selfAddr obStale updX rfl (by decide) (by decide) (by decide)⟩

/-! ## Claim C9 -/

/-- While the breach flag is set and the thresholds are still violated, a
market-data event produces no gateway action at all. -/
lemma updateMarketData_no_actions_when_breached (env : Env) (now lastUpdate : ℤ)
    (position : Position) (marketData : MarketData)
    (hflag : position.isRiskThresholdBreached = true)
    (hrisk : checkRiskThresholds (applyMarketData position marketData) = true) :
    (updateMarketData env now lastUpdate position marketData).2 = [] := by
  have happ : (applyMarketData position marketData).isRiskThresholdBreached = true := hflag
  unfold updateMarketData
  rw [hrisk, happ]
  simp

/-- Effect of a breach when no order is live: pause only. -/
lemma handleRiskThresholdBreach_none (env : Env) (position : Position)
    (h : position.activeOrderHash = none) :
    handleRiskThresholdBreach env position
      = ({ position with status := PStatus.RISK_PAUSED }, []) := by
  unfold handleRiskThresholdBreach
  rw [h]

/-- Effect of a breach with a live order and a successful cancel: track,
cancel, clear and pause. -/
lemma handleRiskThresholdBreach_some (env : Env) (position : Position) (orderHash : String)
    (k : ℕ) (h : position.activeOrderHash = some orderHash)
    (hc : env.cancelResult = Except.ok k) :
    handleRiskThresholdBreach env position
      = ({ position with
            activeOrderHash := none
            orderStatus := OrderStat.CANCELLED_RISK
            status := PStatus.RISK_PAUSED },
          [Action.trackCancelled orderHash, Action.cancel orderHash]) := by
  unfold handleRiskThresholdBreach
  rw [h, hc]

/-- C9: a market-data event that flips the risk predicate (vig above
`maxVig`, or liquidity below `minLiquidity` on either outcome) from false
to true cancels the active order (tracking it for late fills), pauses the
position, posts nothing, and no later market-data event posts anything
while the thresholds remain violated. -/
theorem updateMarketData_risk_breach (env : Env) (now lastUpdate : ℤ) (position : Position)
    (marketData : MarketData) (k : ℕ)
    (hcancel : env.cancelResult = Except.ok k)
    (hflag : position.isRiskThresholdBreached = false)
    (hrisk : checkRiskThresholds (applyMarketData position marketData) = true) :
    (updateMarketData env now lastUpdate position marketData).1.status = PStatus.RISK_PAUSED
      ∧ (updateMarketData env now lastUpdate position marketData).1.isRiskThresholdBreached
        = true
      ∧ (updateMarketData env now lastUpdate position marketData).1.activeOrderHash = none
      ∧ (∀ a ∈ (updateMarketData env now lastUpdate position marketData).2, a.isPost = false)
      ∧ (∀ orderHash, position.activeOrderHash = some orderHash →
          Action.trackCancelled orderHash
              ∈ (updateMarketData env now lastUpdate position marketData).2
            ∧ Action.cancel orderHash
              ∈ (updateMarketData env now lastUpdate position marketData).2)
      ∧ (∀ env2 now2 last2 marketData2,
          checkRiskThresholds
              (applyMarketData (updateMarketData env now lastUpdate position marketData).1
                marketData2) = true →
          (updateMarketData env2 now2 last2
            (updateMarketData env now lastUpdate position marketData).1 marketData2).2 = []) := by
  have happ : (applyMarketData position marketData).isRiskThresholdBreached = false := hflag
  have hmain : updateMarketData env now lastUpdate position marketData
      = handleRiskThresholdBreach env
          { applyMarketData position marketData with isRiskThresholdBreached := true } := by
    unfold updateMarketData
    rw [hrisk, happ]
    simp
  rw [hmain]
  cases hao : position.activeOrderHash with
  | none =>
    rw [handleRiskThresholdBreach_none env
      { applyMarketData position marketData with isRiskThresholdBreached := true } hao]
    refine ⟨rfl, rfl, hao, ?_, ?_, ?_⟩
    · exact fun a ha => absurd ha (List.not_mem_nil a)
    · exact fun orderHash h => Option.noConfusion h
    · intro env2 now2 last2 marketData2 hrisk2
      exact updateMarketData_no_actions_when_breached env2 now2 last2 _ _ rfl hrisk2
  | some orderHash =>
    rw [handleRiskThresholdBreach_some env
      { applyMarketData position marketData with isRiskThresholdBreached := true }
      orderHash k hao hcancel]
    refine ⟨rfl, rfl, rfl, ?_, ?_, ?_⟩
    · intro a ha
      rcases List.mem_cons.mp ha with h | h
      · subst h; rfl
      · rcases List.mem_cons.mp h with h2 | h2
        · subst h2; rfl
        · exact absurd h2 (List.not_mem_nil a)
    · intro o h
      have h2 : orderHash = o := by injection h
      subst h2
      exact ⟨List.mem_cons_self _ _, List.mem_cons_of_mem _ (List.mem_cons_self _ _)⟩
    · intro env2 now2 last2 marketData2 hrisk2
      exact updateMarketData_no_actions_when_breached env2 now2 last2 _ _ rfl hrisk2

/-- A position with a live order and a 50-USDC liquidity floor. -/
def posR : Position :=
  { posW with activeOrderHash := some "0xord", minLiquidity := 50 }

/-- A market-data payload whose outcome-1 liquidity (10) is below the
position's floor. -/
def mdRisk : MarketData :=
  { bestTakerOdds := some (1 / 2), vig := some 2
    liquidity1 := some 10, liquidity2 := some 1000 }

/-- Witness for C9: the liquidity breach pauses the position, cancels its
order and posts nothing. -/
theorem updateMarketData_risk_breach_witness :
    (envOk.cancelResult = Except.ok 1
        ∧ posR.isRiskThresholdBreached = false
        ∧ checkRiskThresholds (applyMarketData posR mdRisk) = true)
      ∧ (updateMarketData envOk 0 0 posR mdRisk).1.status = PStatus.RISK_PAUSED
      ∧ Action.cancel "0xord" ∈ (updateMarketData envOk 0 0 posR mdRisk).2
      ∧ ∀ a ∈ (updateMarketData envOk 0 0 posR mdRisk).2, a.isPost = false := by
  have hr : checkRiskThresholds (applyMarketData posR mdRisk) = true := by
    norm_num [checkRiskThresholds, applyMarketData, posR, posW, mdRisk]
  obtain ⟨h1, h2, h3, h4, h5, h6⟩ :=
    updateMarketData_risk_breach envOk 0 0 posR mdRisk 1 rfl rfl hr
  exact ⟨⟨rfl, rfl, hr⟩, h1, (h5 "0xord" rfl).2, h4⟩

end OddsBot
